import Mathlib

/-!
Verification of the xaus gold-spread pipeline (src/xaus.py) against its
natural-language specification.

The pipeline is shallowly embedded: the exchange collaborator is abstracted
as a function from the attempt number to the outcome of that attempt
(a successful payload, a transient ccxt error, or any other exception);
floats (prices, delays) are modelled as exact rationals; UTC instants are
represented by their epoch-millisecond value (pd.to_datetime with unit ms
and utc is a monotone injection, so timestamp ordering and equality are
preserved); logging and sleeping are recorded in an explicit trace.
-/

/-- Outcome of one invocation of the zero-argument operation passed to
call_with_retry: a result, one of the three transient ccxt errors caught at
src/xaus.py line 118 (NetworkError, RequestTimeout, ExchangeError), or any
other exception, which the except clause does not catch. Errors are
identified by their message. -/
inductive AttemptResult (α : Type) where
  | ok (v : α)
  | transient (err : String)
  | fatal (err : String)
deriving Repr, DecidableEq

/-- Result of running a piece of the pipeline: a value, a raised ValueError,
a raised RuntimeError with its optional cause (the `from last_error` clause
at src/xaus.py line 127), or an uncaught exception propagating through. -/
inductive PyResult (α : Type) where
  | ok (v : α)
  | valueError (msg : String)
  | runtimeError (msg : String) (cause : Option String)
  | uncaught (err : String)
deriving Repr, DecidableEq

/-- One logging.warning record emitted at src/xaus.py line 120:
"%s failed (%d/%d): %s" with the action name, attempt index, configured
retries and the error. -/
structure LogEntry where
  action : String
  attempt : Int
  retries : Int
  err : String
deriving Repr, DecidableEq

/-- Observable side effects of call_with_retry: how many times func() was
invoked, the warnings logged, and the list of durations slept (one
retry_delay entry per time.sleep call at src/xaus.py line 124). -/
structure RetryTrace where
  calls : Nat
  warnings : List LogEntry
  sleeps : List Rat
deriving Repr, DecidableEq

/-- The aggregated failure message built at src/xaus.py line 127:
f-string action_name followed by " failed after ", the retries value and
" attempts". -/
def aggMsg (action_name : String) (retries : Int) : String :=
  action_name ++ " failed after " ++ toString retries ++ " attempts"

/-- The body of the for-loop of call_with_retry (src/xaus.py lines 115-127),
by recursion on the number of remaining loop iterations. `attempt` is the
current 1-based attempt index, `lastError` the last transient error seen,
`tr` the trace accumulated so far. When the fuel runs out the loop has
finished without returning and the RuntimeError of line 127 is raised with
lastError as cause. A transient error appends a warning and, when
attempt < retries (line 123), one sleep of retry_delay; any other
exception propagates uncaught. -/
def retryAux {α : Type} (func : Int → AttemptResult α) (retries : Int)
    (retry_delay : Rat) (action_name : String) :
    Nat → Int → Option String → RetryTrace → PyResult α × RetryTrace
  | 0, _, lastError, tr =>
      (.runtimeError (aggMsg action_name retries) lastError, tr)
  | fuel + 1, attempt, _, tr =>
      match func attempt with
      | .ok v => (.ok v, { tr with calls := tr.calls + 1 })
      | .fatal e => (.uncaught e, { tr with calls := tr.calls + 1 })
      | .transient e =>
          retryAux func retries retry_delay action_name fuel (attempt + 1) (some e)
            { calls := tr.calls + 1,
              warnings := tr.warnings ++ [⟨action_name, attempt, retries, e⟩],
              sleeps := tr.sleeps ++ (if attempt < retries then [retry_delay] else []) }

/-- Embedding of call_with_retry (src/xaus.py lines 112-127). Python's
range(1, retries + 1) performs max(retries, 0) iterations with attempt
running from 1, which retryAux reproduces with fuel retries.toNat starting
at attempt 1, last_error initially None and an empty trace. -/
def call_with_retry {α : Type} (func : Int → AttemptResult α) (retries : Int)
    (retry_delay : Rat) (action_name : String) : PyResult α × RetryTrace :=
  retryAux func retries retry_delay action_name retries.toNat 1 none ⟨0, [], []⟩

/-- Embedding of validate_symbols (src/xaus.py lines 152-155). The loaded
market set is the key set of exchange.markets; the symbol table is the
ordered alias-to-identifier dict. The list comprehension keeps, in order,
the identifiers absent from the market set; if any, a ValueError is raised
whose message interpolates that list, else the function returns None
without touching any state. -/
def validate_symbols (markets : List String) (symbols : List (String × String)) :
    PyResult Unit :=
  let missing := (symbols.map Prod.snd).filter (fun s => decide (s ∉ markets))
  if missing.isEmpty then .ok ()
  else .valueError ("Symbols not available on Bitget swap market: " ++ toString missing)

/-- One OHLCV candle as returned by exchange.fetch_ohlcv: the list
[timestamp, open, high, low, close, volume] (src/xaus.py line 184).
Python's open is a Lean keyword, hence the field name opening. The
timestamp is in epoch milliseconds; prices and volume are modelled as
exact rationals. -/
structure Candle where
  timestamp : Int
  opening : Rat
  high : Rat
  low : Rat
  close : Rat
  volume : Rat
deriving Repr, DecidableEq

/-- The close series extracted by fetch_close_series from a candle list
(src/xaus.py lines 185-197): a DataFrame is built from the candles, the
millisecond timestamp column becomes the index (pd.to_datetime is a
monotone injection, so the index is represented by the raw milliseconds),
and the close column is returned. The row order of the candles is kept. -/
def close_series_of (ohlcv : List Candle) : List (Int × Rat) :=
  ohlcv.map (fun c => (c.timestamp, c.close))

/-- Embedding of fetch_close_series (src/xaus.py lines 161-197). The
exchange is abstracted as func, giving fetch_ohlcv's outcome per attempt;
timeframe and limit only parameterize that call, so they are absorbed into
func. The candle list is obtained through call_with_retry under the action
name fetch_ohlcv(symbol); an empty list raises the ValueError of line 182;
otherwise the close series is returned. Retry failures propagate. -/
def fetch_close_series (func : Int → AttemptResult (List Candle)) (retries : Int)
    (retry_delay : Rat) (symbol : String) : PyResult (List (Int × Rat)) :=
  match (call_with_retry func retries retry_delay ("fetch_ohlcv(" ++ symbol ++ ")")).1 with
  | .ok ohlcv =>
      if ohlcv.isEmpty then .valueError ("No OHLCV data returned for " ++ symbol)
      else .ok (close_series_of ohlcv)
  | .valueError m => .valueError m
  | .runtimeError m c => .runtimeError m c
  | .uncaught e => .uncaught e

/-- The row index produced by pd.concat(series_list, axis=1, join="inner")
at src/xaus.py line 227: the combined axis is the intersection of the
series indexes, folded from the first index through Index.intersection,
which for the monotonic duplicate-free indexes produced here keeps the
elements of the left index that occur in the other index, in the left
index's order. -/
def innerJoinIndex (idxs : List (List Int)) : List Int :=
  match idxs with
  | [] => []
  | first :: rest =>
      rest.foldl (fun acc other => acc.filter (fun t => decide (t ∈ other))) first

/-- Value of a series at an index label: pandas reindexing looks the label
up in the series index. After an inner join every label is present, so the
default never shows through. -/
def lookupPrice (s : List (Int × Rat)) (t : Int) : Rat :=
  (s.lookup t).getD 0

/-- The aligned price table: row index (timestamps) plus one named column
of prices per alias, each column listing its value at every index row. -/
structure DataFrame where
  index : List Int
  cols : List (String × List Rat)
deriving Repr, DecidableEq

/-- Embedding of build_price_df (src/xaus.py lines 202-232). The per-alias
fetch loop of lines 210-224 is factored through fetch_close_series; this
function receives the (alias, close series) pairs that loop produced, in
the symbol dict's order, with each series named after its alias (line 223).
pd.concat with axis=1 and join="inner" (line 227) aligns the series on the
intersection of their indexes — an empty objs list raises its ValueError —
and the empty result check of lines 229-230 raises the ValueError shown. -/
def build_price_df (seriesList : List (String × List (Int × Rat))) :
    PyResult DataFrame :=
  if seriesList.isEmpty then .valueError "No objects to concatenate"
  else
    let idx := innerJoinIndex (seriesList.map (fun p => p.2.map Prod.fst))
    if idx.isEmpty then
      .valueError "Joined price dataframe is empty. Check symbols/timeframe/limit."
    else
      .ok ⟨idx, seriesList.map (fun p => (p.1, idx.map (lookupPrice p.2)))⟩

/-- Column read df[name] on the aligned table. -/
def DataFrame.getCol (df : DataFrame) (name : String) : List Rat :=
  (df.cols.lookup name).getD []

/-- Column assignment df[name] = vals: pandas overwrites the column if the
name exists and appends it at the end otherwise, mutating df in place. -/
def DataFrame.setCol (df : DataFrame) (name : String) (vals : List Rat) : DataFrame :=
  if (df.cols.lookup name).isSome then
    { df with cols := df.cols.map (fun p => if p.1 = name then (name, vals) else p) }
  else
    { df with cols := df.cols ++ [(name, vals)] }

/-- Embedding of add_spreads (src/xaus.py lines 236-240): three sequential
column assignments, each the elementwise difference of two existing price
columns (both frames share one index, so subtraction pairs rows up), then
the frame is returned. This gives the contents of the returned frame. -/
def add_spreads (price_df : DataFrame) : DataFrame :=
  let d1 := price_df.setCol "XAU_minus_XAUT"
    (List.zipWith (fun a b => a - b) (price_df.getCol "XAU") (price_df.getCol "XAUT"))
  let d2 := d1.setCol "XAU_minus_PAXG"
    (List.zipWith (fun a b => a - b) (d1.getCol "XAU") (d1.getCol "PAXG"))
  let d3 := d2.setCol "PAXG_minus_XAUT"
    (List.zipWith (fun a b => a - b) (d2.getCol "PAXG") (d2.getCol "XAUT"))
  d3

/-- Contents of the argument object after add_spreads returns: the three
column assignments of src/xaus.py lines 237-239 write into the received
frame itself (pandas item assignment mutates the receiver), so the caller's
frame ends up holding exactly what add_spreads returns, not its original
value. -/
def add_spreads_arg_after (price_df : DataFrame) : DataFrame :=
  add_spreads price_df

/-- Claim C10: with retries less than or equal to 0, range(1, retries + 1) is
empty, so call_with_retry raises the aggregated RuntimeError without ever
invoking the operation, with no warning, no sleep, and cause None. -/
theorem c10_nonpositive_retries {α : Type} (func : Int → AttemptResult α)
    (retries : Int) (retry_delay : Rat) (action_name : String)
    (h : retries ≤ 0) :
    call_with_retry func retries retry_delay action_name =
      (.runtimeError (aggMsg action_name retries) none, ⟨0, [], []⟩) := by
  have hz : retries.toNat = 0 := Int.toNat_of_nonpos h
  simp [call_with_retry, hz, retryAux]

/-- Witness for c10_nonpositive_retries at retries = 0 with an operation that
would succeed if it were ever invoked. -/
theorem c10_nonpositive_retries_witness :
    call_with_retry (fun _ => AttemptResult.ok (42 : Nat)) 0 2 "load_markets" =
      (.runtimeError (aggMsg "load_markets" 0) none, ⟨0, [], []⟩) :=
  c10_nonpositive_retries (fun _ => AttemptResult.ok 42) 0 2 "load_markets" (by decide)

/-- Claim C7: an exception that is not one of the three transient ccxt errors
raised on the first invocation is not caught: it propagates unchanged, func
is invoked exactly once, and nothing is logged or slept; no aggregated
RuntimeError is raised. -/
theorem c7_fatal_propagates {α : Type} (func : Int → AttemptResult α)
    (retries : Int) (retry_delay : Rat) (action_name : String) (e : String)
    (hr : 1 ≤ retries) (hf : func 1 = .fatal e) :
    call_with_retry func retries retry_delay action_name =
      (.uncaught e, ⟨1, [], []⟩) := by
  have h1 : 1 ≤ retries.toNat := by omega
  obtain ⟨m, hm⟩ : ∃ m, retries.toNat = m + 1 := ⟨retries.toNat - 1, by omega⟩
  simp [call_with_retry, hm, retryAux, hf]

/-- Witness for c7_fatal_propagates: an operation raising a TypeError on the
first attempt with retries = 3. -/
theorem c7_fatal_propagates_witness :
    call_with_retry (fun _ => AttemptResult.fatal (α := Nat) "TypeError: boom") 3 2 "load_markets" =
      (.uncaught "TypeError: boom", ⟨1, [], []⟩) :=
  c7_fatal_propagates (fun _ => AttemptResult.fatal "TypeError: boom") 3 2 "load_markets"
    "TypeError: boom" (by decide) rfl

/-- Helper: if every attempt in the remaining window is transient and the
window runs exactly to the final attempt (attempt + fuel = retries + 1),
the loop exhausts, raising the aggregated RuntimeError with the error of
the final attempt as cause, invoking func once per remaining attempt,
logging one warning per attempt, and sleeping after every attempt except
the last. -/
theorem retryAux_all_transient {α : Type} (func : Int → AttemptResult α)
    (retries : Int) (retry_delay : Rat) (action_name : String) (e : Int → String) :
    ∀ (fuel : Nat) (attempt : Int) (lastError : Option String) (tr : RetryTrace),
      1 ≤ fuel → attempt + fuel = retries + 1 →
      (∀ i : Int, attempt ≤ i → i ≤ retries → func i = .transient (e i)) →
      retryAux func retries retry_delay action_name fuel attempt lastError tr =
        (.runtimeError (aggMsg action_name retries) (some (e retries)),
         ⟨tr.calls + fuel,
          tr.warnings ++ (List.range fuel).map
            (fun j => ⟨action_name, attempt + j, retries, e (attempt + j)⟩),
          tr.sleeps ++ List.replicate (fuel - 1) retry_delay⟩) := by
  intro fuel
  induction fuel with
  | zero => intro attempt lastError tr h1; omega
  | succ m ih =>
      intro attempt lastError tr _ h2 hfunc
      have hale : attempt ≤ retries := by omega
      have ha : func attempt = .transient (e attempt) := hfunc attempt le_rfl hale
      rcases Nat.eq_zero_or_pos m with hm | hm
      · subst hm
        have har : attempt = retries := by omega
        subst har
        simp [retryAux, ha, aggMsg, List.range_succ]
      · have hlt : attempt < retries := by omega
        have step : retryAux func retries retry_delay action_name (m + 1) attempt lastError tr =
            retryAux func retries retry_delay action_name m (attempt + 1) (some (e attempt))
              ⟨tr.calls + 1,
               tr.warnings ++ [⟨action_name, attempt, retries, e attempt⟩],
               tr.sleeps ++ [retry_delay]⟩ := by
          simp [retryAux, ha, hlt]
        rw [step, ih (attempt + 1) (some (e attempt)) _ hm (by omega)
          (fun i hi1 hi2 => hfunc i (by omega) hi2)]
        have hw : ((List.range (m + 1)).map
            (fun j : Nat => (⟨action_name, attempt + j, retries, e (attempt + j)⟩ : LogEntry))) =
            ⟨action_name, attempt, retries, e attempt⟩ ::
              (List.range m).map
                (fun j : Nat =>
                  (⟨action_name, attempt + 1 + j, retries, e (attempt + 1 + j)⟩ : LogEntry)) := by
          rw [List.range_succ_eq_map, List.map_cons, List.map_map]
          refine congrArg₂ List.cons (by simp) ?_
          refine List.map_congr_left ?_
          intro j _
          have hc : attempt + ((j : Int) + 1) = attempt + 1 + j := by ring
          simp [Function.comp, Nat.succ_eq_add_one, hc]
        have hs : retry_delay :: List.replicate (m - 1) retry_delay =
            List.replicate m retry_delay := by
          obtain ⟨m', rfl⟩ : ∃ m', m = m' + 1 := ⟨m - 1, by omega⟩
          simp [List.replicate_succ]
        simp [hw, hs, List.append_assoc, Nat.add_comm, Nat.add_assoc, Nat.add_left_comm]

/-- Claim C2: when every one of the N attempts (N at least 1) raises a
transient error, call_with_retry raises exactly one aggregated RuntimeError
whose message embeds the label and the attempt count, with the last
attempt's error as its cause, after invoking the operation N times and
sleeping the configured delay exactly N - 1 times (never after the final
attempt). -/
theorem c2_all_attempts_fail {α : Type} (func : Int → AttemptResult α)
    (N : Nat) (retry_delay : Rat) (action_name : String) (e : Int → String)
    (hN : 1 ≤ N)
    (hfunc : ∀ i : Int, 1 ≤ i → i ≤ N → func i = .transient (e i)) :
    call_with_retry func N retry_delay action_name =
      (.runtimeError (aggMsg action_name N) (some (e N)),
       ⟨N,
        (List.range N).map (fun j : Nat => ⟨action_name, 1 + (j : Int), N, e (1 + j)⟩),
        List.replicate (N - 1) retry_delay⟩) := by
  unfold call_with_retry
  rw [Int.toNat_natCast]
  have h := retryAux_all_transient func N retry_delay action_name e N 1 none
    ⟨0, [], []⟩ hN (by omega) (fun i h1 h2 => hfunc i h1 h2)
  simpa using h

/-- Witness for c2_all_attempts_fail: every attempt raises a NetworkError
with retries = 2 and delay 2. -/
theorem c2_all_attempts_fail_witness :
    call_with_retry (fun _ => AttemptResult.transient (α := Nat) "net down") 2 2 "load_markets" =
      (.runtimeError (aggMsg "load_markets" 2) (some "net down"),
       ⟨2,
        (List.range 2).map (fun j : Nat => ⟨"load_markets", 1 + (j : Int), 2, "net down"⟩),
        List.replicate (2 - 1) 2⟩) :=
  c2_all_attempts_fail (fun _ => AttemptResult.transient "net down") 2 2 "load_markets"
    (fun _ => "net down") (by decide) (fun i _ _ => rfl)

/-- Helper: if the attempts before attempt + k are transient, attempt + k
succeeds with v and attempt + k is within the loop bound, the loop returns
v at attempt + k after k + 1 invocations, k warnings and k sleeps, never
touching any later attempt. -/
theorem retryAux_transient_then_ok {α : Type} (func : Int → AttemptResult α)
    (retries : Int) (retry_delay : Rat) (action_name : String) (e : Int → String) (v : α) :
    ∀ (k fuel : Nat) (attempt : Int) (lastError : Option String) (tr : RetryTrace),
      k < fuel → attempt + fuel = retries + 1 →
      (∀ i : Int, attempt ≤ i → i < attempt + k → func i = .transient (e i)) →
      func (attempt + k) = .ok v →
      retryAux func retries retry_delay action_name fuel attempt lastError tr =
        (.ok v,
         ⟨tr.calls + k + 1,
          tr.warnings ++ (List.range k).map
            (fun j => ⟨action_name, attempt + j, retries, e (attempt + j)⟩),
          tr.sleeps ++ List.replicate k retry_delay⟩) := by
  intro k
  induction k with
  | zero =>
      intro fuel attempt lastError tr hk h2 _ hok
      obtain ⟨m, rfl⟩ : ∃ m, fuel = m + 1 := ⟨fuel - 1, by omega⟩
      have hok0 : func attempt = .ok v := by simpa using hok
      simp [retryAux, hok0]
  | succ k ih =>
      intro fuel attempt lastError tr hk h2 hfail hok
      obtain ⟨m, rfl⟩ : ∃ m, fuel = m + 1 := ⟨fuel - 1, by omega⟩
      have ha : func attempt = .transient (e attempt) :=
        hfail attempt le_rfl (by push_cast; omega)
      have hlt : attempt < retries := by omega
      have step : retryAux func retries retry_delay action_name (m + 1) attempt lastError tr =
          retryAux func retries retry_delay action_name m (attempt + 1) (some (e attempt))
            ⟨tr.calls + 1,
             tr.warnings ++ [⟨action_name, attempt, retries, e attempt⟩],
             tr.sleeps ++ [retry_delay]⟩ := by
        simp [retryAux, ha, hlt]
      have hok1 : func (attempt + 1 + k) = .ok v := by
        have hc : attempt + 1 + (k : Int) = attempt + ((k : Int) + 1) := by ring
        rw [hc]
        simpa using hok
      rw [step, ih m (attempt + 1) (some (e attempt)) _ (by omega) (by omega)
        (fun i hi1 hi2 => hfail i (by omega) (by push_cast at hi2 ⊢; omega)) hok1]
      have hw : ((List.range (k + 1)).map
          (fun j : Nat => (⟨action_name, attempt + j, retries, e (attempt + j)⟩ : LogEntry))) =
          ⟨action_name, attempt, retries, e attempt⟩ ::
            (List.range k).map
              (fun j : Nat =>
                (⟨action_name, attempt + 1 + j, retries, e (attempt + 1 + j)⟩ : LogEntry)) := by
        rw [List.range_succ_eq_map, List.map_cons, List.map_map]
        refine congrArg₂ List.cons (by simp) ?_
        refine List.map_congr_left ?_
        intro j _
        have hc : attempt + ((j : Int) + 1) = attempt + 1 + j := by ring
        simp [Function.comp, Nat.succ_eq_add_one, hc]
      have hs : retry_delay :: List.replicate k retry_delay =
          List.replicate (k + 1) retry_delay := by
        simp [List.replicate_succ]
      simp [hw, hs, List.append_assoc, Nat.add_comm, Nat.add_assoc, Nat.add_left_comm]

/-- Claim C1: when the first N - 1 attempts raise transient errors and the
N-th succeeds with v (retries = N, N at least 1), call_with_retry returns
v, invokes the operation exactly N times (never again after the success),
logs exactly N - 1 warnings, and raises no aggregated failure. -/
theorem c1_eventual_success {α : Type} (func : Int → AttemptResult α)
    (N : Nat) (retry_delay : Rat) (action_name : String) (e : Int → String) (v : α)
    (hN : 1 ≤ N)
    (hfail : ∀ i : Int, 1 ≤ i → i < N → func i = .transient (e i))
    (hok : func N = .ok v) :
    call_with_retry func N retry_delay action_name =
      (.ok v,
       ⟨N,
        (List.range (N - 1)).map (fun j : Nat => ⟨action_name, 1 + (j : Int), N, e (1 + j)⟩),
        List.replicate (N - 1) retry_delay⟩)
    ∧ ((List.range (N - 1)).map
        (fun j : Nat => (⟨action_name, 1 + (j : Int), N, e (1 + j)⟩ : LogEntry))).length = N - 1 := by
  refine ⟨?_, by simp⟩
  unfold call_with_retry
  rw [Int.toNat_natCast]
  have hok1 : func (1 + ((N - 1 : Nat) : Int)) = .ok v := by
    have hc : 1 + ((N - 1 : Nat) : Int) = N := by omega
    rw [hc]; exact hok
  have h := retryAux_transient_then_ok func N retry_delay action_name e v (N - 1) N 1 none
    ⟨0, [], []⟩ (by omega) (by omega)
    (fun i hi1 hi2 => hfail i hi1 (by omega)) hok1
  have hcalls : 0 + (N - 1) + 1 = N := by omega
  rw [h, hcalls]
  simp

/-- Witness for c1_eventual_success: the first two attempts raise a
NetworkError and the third returns 42, with retries = 3. -/
theorem c1_eventual_success_witness :
    call_with_retry (fun i => if i = 3 then AttemptResult.ok (42 : Nat)
      else AttemptResult.transient "net down") 3 2 "load_markets" =
      (.ok 42,
       ⟨3,
        (List.range (3 - 1)).map (fun j : Nat => ⟨"load_markets", 1 + (j : Int), 3, "net down"⟩),
        List.replicate (3 - 1) 2⟩)
    ∧ ((List.range (3 - 1)).map
        (fun j : Nat => (⟨"load_markets", 1 + (j : Int), 3, "net down"⟩ : LogEntry))).length = 3 - 1 :=
  c1_eventual_success
    (fun i => if i = 3 then AttemptResult.ok 42 else AttemptResult.transient "net down")
    3 2 "load_markets" (fun _ => "net down") 42 (by decide)
    (fun i _ h2 => by
      show (if i = 3 then AttemptResult.ok 42 else AttemptResult.transient "net down") =
        AttemptResult.transient "net down"
      rw [if_neg (by omega)])
    (by decide)

/-- Claim C6: validate_symbols returns without error exactly when every
required instrument identifier is in the loaded market set; otherwise it
raises a ValueError whose message interpolates exactly the list of absent
identifiers, in symbol-table order. It performs no retry and touches no
state: it is a pure check on its two inputs. -/
theorem c6_validate_symbols (markets : List String) (symbols : List (String × String)) :
    (validate_symbols markets symbols = .ok () ↔ ∀ p ∈ symbols, p.2 ∈ markets)
    ∧ ((∃ p ∈ symbols, p.2 ∉ markets) →
        validate_symbols markets symbols =
          .valueError ("Symbols not available on Bitget swap market: " ++
            toString ((symbols.map Prod.snd).filter (fun s => decide (s ∉ markets))))) := by
  have hiff : ((symbols.map Prod.snd).filter (fun s => decide (s ∉ markets))) = [] ↔
      ∀ p ∈ symbols, p.2 ∈ markets := by
    rw [List.filter_eq_nil_iff]
    constructor
    · intro h p hp
      have h2 := h p.2 (List.mem_map_of_mem Prod.snd hp)
      simpa using h2
    · intro h s hs
      obtain ⟨p, hp, rfl⟩ := List.mem_map.mp hs
      simpa using h p hp
  by_cases hc : ((symbols.map Prod.snd).filter (fun s => decide (s ∉ markets))) = []
  · have h1 : validate_symbols markets symbols = .ok () := by
      simp only [validate_symbols]
      rw [hc]
      rfl
    constructor
    · rw [h1]
      exact iff_of_true rfl (hiff.mp hc)
    · rintro ⟨p, hp, hnp⟩
      exact absurd (hiff.mp hc p hp) hnp
  · have h1 : validate_symbols markets symbols =
        .valueError ("Symbols not available on Bitget swap market: " ++
          toString ((symbols.map Prod.snd).filter (fun s => decide (s ∉ markets)))) := by
      simp only [validate_symbols]
      rw [if_neg (by simpa [List.isEmpty_iff] using hc)]
    constructor
    · rw [h1]
      exact iff_of_false (by simp) (fun hall => hc (hiff.mpr hall))
    · exact fun _ => h1

/-- Witness for c6_validate_symbols: a market set missing exactly the XAUT
identifier makes validate_symbols fail naming exactly that identifier,
while the full market set passes. -/
theorem c6_validate_symbols_witness :
    validate_symbols ["XAU/USDT:USDT", "PAXG/USDT:USDT"]
        [("XAU", "XAU/USDT:USDT"), ("XAUT", "XAUT/USDT:USDT"), ("PAXG", "PAXG/USDT:USDT")] =
      .valueError ("Symbols not available on Bitget swap market: " ++
        toString ((([("XAU", "XAU/USDT:USDT"), ("XAUT", "XAUT/USDT:USDT"),
          ("PAXG", "PAXG/USDT:USDT")] : List (String × String)).map Prod.snd).filter
            (fun s => decide (s ∉ ["XAU/USDT:USDT", "PAXG/USDT:USDT"])))) :=
  (c6_validate_symbols ["XAU/USDT:USDT", "PAXG/USDT:USDT"]
      [("XAU", "XAU/USDT:USDT"), ("XAUT", "XAUT/USDT:USDT"), ("PAXG", "PAXG/USDT:USDT")]).2
    ⟨("XAUT", "XAUT/USDT:USDT"), by decide, by decide⟩

/-- Helper: a timestamp survives the fold of filters that implements the
inner join exactly when it is in the accumulator and in every remaining
index. -/
theorem mem_foldl_filter (t : Int) :
    ∀ (rest : List (List Int)) (acc : List Int),
      (t ∈ rest.foldl (fun acc other => acc.filter (fun x => decide (x ∈ other))) acc ↔
        t ∈ acc ∧ ∀ o ∈ rest, t ∈ o) := by
  intro rest
  induction rest with
  | nil => intro acc; simp
  | cons o rest ih =>
      intro acc
      rw [List.foldl_cons, ih]
      simp only [List.mem_filter, List.forall_mem_cons, decide_eq_true_eq]
      tauto

/-- Helper: the fold of filters keeps the accumulator's strict ordering. -/
theorem pairwise_foldl_filter :
    ∀ (rest : List (List Int)) (acc : List Int),
      acc.Pairwise (· < ·) →
      (rest.foldl (fun acc other =>
        acc.filter (fun x => decide (x ∈ other))) acc).Pairwise (· < ·) := by
  intro rest
  induction rest with
  | nil => intro acc h; simpa using h
  | cons o rest ih =>
      intro acc h
      rw [List.foldl_cons]
      exact ih _ (h.filter _)

/-- Claim C3: for a non-empty family of per-alias closing-price series, each
with strictly increasing timestamps, every table build_price_df produces
has as row timestamps exactly the timestamps present in every input series
(the intersection), in strictly ascending order. -/
theorem c3_inner_join (seriesList : List (String × List (Int × Rat))) (df : DataFrame)
    (hsorted : ∀ p ∈ seriesList, (p.2.map Prod.fst).Pairwise (· < ·))
    (hne : seriesList ≠ [])
    (hok : build_price_df seriesList = .ok df) :
    (∀ t : Int, t ∈ df.index ↔ ∀ p ∈ seriesList, t ∈ p.2.map Prod.fst)
    ∧ df.index.Pairwise (· < ·) := by
  obtain ⟨p0, rest, rfl⟩ : ∃ p0 rest, seriesList = p0 :: rest := by
    cases seriesList with
    | nil => exact absurd rfl hne
    | cons a l => exact ⟨a, l, rfl⟩
  have h0 : innerJoinIndex ((p0 :: rest).map (fun p => p.2.map Prod.fst)) =
      (rest.map (fun p => p.2.map Prod.fst)).foldl
        (fun acc other => acc.filter (fun x => decide (x ∈ other))) (p0.2.map Prod.fst) := by
    simp [innerJoinIndex]
  have hidx : df.index = innerJoinIndex ((p0 :: rest).map (fun p => p.2.map Prod.fst)) := by
    simp only [build_price_df] at hok
    rw [if_neg (by simp)] at hok
    split at hok
    · simp at hok
    · injection hok with h
      exact congrArg DataFrame.index h.symm
  constructor
  · intro t
    rw [hidx, h0, mem_foldl_filter]
    simp only [List.forall_mem_cons, List.forall_mem_map]
  · rw [hidx, h0]
    exact pairwise_foldl_filter _ _ (hsorted p0 (List.mem_cons_self p0 rest))

/-- Witness for c3_inner_join on the spec's example series with timestamp
sets {1,2,3}, {2,3,4} and {2,3}: the aligned table has exactly the
timestamps 2 and 3, ascending. -/
theorem c3_inner_join_witness :
    build_price_df
        [("XAU", [((1 : Int), (10 : Rat)), (2, 10), (3, 10)]),
         ("XAUT", [(2, 9), (3, 9), (4, 9)]),
         ("PAXG", [(2, 11), (3, 11)])] =
      .ok ⟨[2, 3], [("XAU", [10, 10]), ("XAUT", [9, 9]), ("PAXG", [11, 11])]⟩
    ∧ (2 : Int) ∈ (DataFrame.mk [2, 3]
        [("XAU", [10, 10]), ("XAUT", [9, 9]), ("PAXG", [11, 11])]).index
    ∧ (3 : Int) ∈ (DataFrame.mk [2, 3]
        [("XAU", [10, 10]), ("XAUT", [9, 9]), ("PAXG", [11, 11])]).index
    ∧ ¬ (1 : Int) ∈ (DataFrame.mk [2, 3]
        [("XAU", [10, 10]), ("XAUT", [9, 9]), ("PAXG", [11, 11])]).index
    ∧ ¬ (4 : Int) ∈ (DataFrame.mk [2, 3]
        [("XAU", [10, 10]), ("XAUT", [9, 9]), ("PAXG", [11, 11])]).index
    ∧ (DataFrame.mk [2, 3]
        [("XAU", [10, 10]), ("XAUT", [9, 9]), ("PAXG", [11, 11])]).index.Pairwise (· < ·) := by
  have h := c3_inner_join
    [("XAU", [((1 : Int), (10 : Rat)), (2, 10), (3, 10)]),
     ("XAUT", [(2, 9), (3, 9), (4, 9)]),
     ("PAXG", [(2, 11), (3, 11)])]
    ⟨[2, 3], [("XAU", [10, 10]), ("XAUT", [9, 9]), ("PAXG", [11, 11])]⟩
    (by decide) (by decide) (by decide)
  refine ⟨by decide, (h.1 2).mpr (by decide), (h.1 3).mpr (by decide), ?_, ?_, h.2⟩
  · intro h1
    have h2 := (h.1 1).mp h1 ("XAUT", [(2, 9), (3, 9), (4, 9)]) (by decide)
    exact absurd h2 (by decide)
  · intro h4
    have h2 := (h.1 4).mp h4 ("PAXG", [(2, 11), (3, 11)]) (by decide)
    exact absurd h2 (by decide)

/-- Claim C5: empty data never propagates silently. A fetch whose retry
wrapper returns zero candles makes fetch_close_series raise the ValueError
of src/xaus.py line 182 (raised after the retry wrapper has returned, so
it is not retried further), and a non-empty family of series with no
common timestamp makes build_price_df raise the ValueError of lines
229-230; neither returns an empty series or an empty table. -/
theorem c5_empty_data :
    (∀ (func : Int → AttemptResult (List Candle)) (retries : Int) (retry_delay : Rat)
        (symbol : String) (tr : RetryTrace),
      call_with_retry func retries retry_delay ("fetch_ohlcv(" ++ symbol ++ ")") =
        (.ok [], tr) →
      fetch_close_series func retries retry_delay symbol =
        .valueError ("No OHLCV data returned for " ++ symbol))
    ∧ (∀ seriesList : List (String × List (Int × Rat)),
        seriesList ≠ [] →
        innerJoinIndex (seriesList.map (fun p => p.2.map Prod.fst)) = [] →
        build_price_df seriesList =
          .valueError "Joined price dataframe is empty. Check symbols/timeframe/limit.") := by
  constructor
  · intro func retries retry_delay symbol tr h
    unfold fetch_close_series
    rw [h]
    rfl
  · intro seriesList hne hidx
    obtain ⟨p0, rest, rfl⟩ : ∃ p0 rest, seriesList = p0 :: rest := by
      cases seriesList with
      | nil => exact absurd rfl hne
      | cons a l => exact ⟨a, l, rfl⟩
    simp only [build_price_df]
    rw [if_neg (by simp)]
    rw [if_pos (by rw [hidx]; rfl)]

/-- Witness for c5_empty_data: a successful fetch with zero candles, and
three series with pairwise disjoint timestamp sets. -/
theorem c5_empty_data_witness :
    fetch_close_series (fun _ => AttemptResult.ok []) 1 2 "XAU/USDT:USDT" =
      .valueError ("No OHLCV data returned for " ++ "XAU/USDT:USDT")
    ∧ build_price_df
        [("XAU", [((1 : Int), (10 : Rat))]), ("XAUT", [(2, 9)]), ("PAXG", [(3, 11)])] =
      .valueError "Joined price dataframe is empty. Check symbols/timeframe/limit." :=
  ⟨c5_empty_data.1 (fun _ => AttemptResult.ok []) 1 2 "XAU/USDT:USDT" ⟨1, [], []⟩ (by decide),
   c5_empty_data.2 [("XAU", [(1, 10)]), ("XAUT", [(2, 9)]), ("PAXG", [(3, 11)])]
     (by decide) (by decide)⟩

/-- Claim C8: when the exchange returns a non-empty candle list in its
chronological order (strictly increasing timestamps, the order fetch_ohlcv
delivers), fetch_close_series returns the (timestamp, close) series in
exactly that order, so its timestamps are strictly increasing and contain
no duplicates. -/
theorem c8_series_strictly_increasing
    (func : Int → AttemptResult (List Candle)) (retries : Int) (retry_delay : Rat)
    (symbol : String) (ohlcv : List Candle) (tr : RetryTrace)
    (hcall : call_with_retry func retries retry_delay ("fetch_ohlcv(" ++ symbol ++ ")") =
      (.ok ohlcv, tr))
    (hne : ohlcv ≠ [])
    (hchrono : (ohlcv.map Candle.timestamp).Pairwise (· < ·)) :
    fetch_close_series func retries retry_delay symbol = .ok (close_series_of ohlcv)
    ∧ (close_series_of ohlcv).map Prod.fst = ohlcv.map Candle.timestamp
    ∧ ((close_series_of ohlcv).map Prod.fst).Pairwise (· < ·)
    ∧ ((close_series_of ohlcv).map Prod.fst).Nodup := by
  have hmap : (close_series_of ohlcv).map Prod.fst = ohlcv.map Candle.timestamp := by
    simp [close_series_of, List.map_map]
  refine ⟨?_, hmap, ?_, ?_⟩
  · unfold fetch_close_series
    rw [hcall]
    simp [hne]
  · rw [hmap]; exact hchrono
  · rw [hmap]
    exact hchrono.imp fun h => ne_of_lt h

/-- Witness for c8_series_strictly_increasing: two chronological candles
fetched on the first attempt. -/
theorem c8_series_strictly_increasing_witness :
    fetch_close_series
        (fun _ => AttemptResult.ok
          [⟨1000, 9, 12, 8, 10, 5⟩, ⟨2000, 10, 13, 9, 11, 6⟩]) 3 2 "XAU/USDT:USDT" =
      .ok (close_series_of [⟨1000, 9, 12, 8, 10, 5⟩, ⟨2000, 10, 13, 9, 11, 6⟩])
    ∧ (close_series_of [⟨1000, 9, 12, 8, 10, 5⟩, ⟨2000, 10, 13, 9, 11, 6⟩]).map Prod.fst =
        ([⟨1000, 9, 12, 8, 10, 5⟩, ⟨2000, 10, 13, 9, 11, 6⟩] : List Candle).map Candle.timestamp
    ∧ ((close_series_of [⟨1000, 9, 12, 8, 10, 5⟩, ⟨2000, 10, 13, 9, 11, 6⟩]).map
        Prod.fst).Pairwise (· < ·)
    ∧ ((close_series_of [⟨1000, 9, 12, 8, 10, 5⟩, ⟨2000, 10, 13, 9, 11, 6⟩]).map
        Prod.fst).Nodup :=
  c8_series_strictly_increasing
    (fun _ => AttemptResult.ok [⟨1000, 9, 12, 8, 10, 5⟩, ⟨2000, 10, 13, 9, 11, 6⟩])
    3 2 "XAU/USDT:USDT" [⟨1000, 9, 12, 8, 10, 5⟩, ⟨2000, 10, 13, 9, 11, 6⟩] ⟨1, [], []⟩
    (by decide) (by decide) (by decide)

/-- Helper: evaluating the three sequential column assignments of
add_spreads on a table whose columns are exactly XAU, XAUT and PAXG. Each
spread name is absent from the table, so each assignment appends at the
end; the reads pick up the original price columns. -/
theorem add_spreads_eq (idx : List Int) (xs ys zs : List Rat) :
    add_spreads ⟨idx, [("XAU", xs), ("XAUT", ys), ("PAXG", zs)]⟩ =
      ⟨idx, [("XAU", xs), ("XAUT", ys), ("PAXG", zs),
             ("XAU_minus_XAUT", List.zipWith (fun a b => a - b) xs ys),
             ("XAU_minus_PAXG", List.zipWith (fun a b => a - b) xs zs),
             ("PAXG_minus_XAUT", List.zipWith (fun a b => a - b) zs ys)]⟩ := by
  rfl

/-- Claim C4: on an aligned table whose columns are XAU, XAUT and PAXG,
add_spreads appends exactly the three columns XAU_minus_XAUT,
XAU_minus_PAXG and PAXG_minus_XAUT, each row the plain numeric difference
of the two named price columns at that row; on the row XAU=100, XAUT=99,
PAXG=101 the derived values are 1, -1 and 2. -/
theorem c4_spread_columns :
    (∀ (idx : List Int) (xs ys zs : List Rat),
      add_spreads ⟨idx, [("XAU", xs), ("XAUT", ys), ("PAXG", zs)]⟩ =
        ⟨idx, [("XAU", xs), ("XAUT", ys), ("PAXG", zs),
               ("XAU_minus_XAUT", List.zipWith (fun a b => a - b) xs ys),
               ("XAU_minus_PAXG", List.zipWith (fun a b => a - b) xs zs),
               ("PAXG_minus_XAUT", List.zipWith (fun a b => a - b) zs ys)]⟩)
    ∧ add_spreads ⟨[0], [("XAU", [100]), ("XAUT", [99]), ("PAXG", [101])]⟩ =
        ⟨[0], [("XAU", [100]), ("XAUT", [99]), ("PAXG", [101]),
               ("XAU_minus_XAUT", [1]), ("XAU_minus_PAXG", [-1]),
               ("PAXG_minus_XAUT", [2])]⟩ :=
  ⟨add_spreads_eq, by rw [add_spreads_eq]; norm_num [List.zipWith]⟩

/-- Claim C9 counterexample: the returned table is not a fresh value. The
column assignments of src/xaus.py lines 237-239 write into the received
frame, so after the call the argument no longer holds its original
contents: at this concrete one-row table the argument's post-call contents
differ from the value passed in. -/
theorem c9_not_fresh_counterexample :
    add_spreads_arg_after ⟨[0], [("XAU", [100]), ("XAUT", [99]), ("PAXG", [101])]⟩ ≠
      ⟨[0], [("XAU", [100]), ("XAUT", [99]), ("PAXG", [101])]⟩ := by
  decide

/-- Claim C9 as amended: add_spreads keeps the row index unchanged and the
pre-existing price columns unchanged at the front of the column list,
appending only the three spread columns; but the returned table is the
argument object itself after in-place mutation, not a fresh value: the
argument's post-call contents coincide with the returned table. -/
theorem c9_frame_and_mutation :
    (∀ (idx : List Int) (xs ys zs : List Rat),
      (add_spreads ⟨idx, [("XAU", xs), ("XAUT", ys), ("PAXG", zs)]⟩).index = idx
      ∧ (add_spreads ⟨idx, [("XAU", xs), ("XAUT", ys), ("PAXG", zs)]⟩).cols =
          [("XAU", xs), ("XAUT", ys), ("PAXG", zs)] ++
            [("XAU_minus_XAUT", List.zipWith (fun a b => a - b) xs ys),
             ("XAU_minus_PAXG", List.zipWith (fun a b => a - b) xs zs),
             ("PAXG_minus_XAUT", List.zipWith (fun a b => a - b) zs ys)])
    ∧ (∀ df : DataFrame, add_spreads_arg_after df = add_spreads df) := by
  refine ⟨fun idx xs ys zs => ⟨?_, ?_⟩, fun df => rfl⟩
  · rw [add_spreads_eq]
  · rw [add_spreads_eq]
    rfl
